import Mathlib

/-!
Verification of the go-rl MDP data model.

Shallow embedding of the `mdp` Go package: States, Actions, Transitions,
the RewardsTable, the TransitionTable, and the MDP aggregate with its
mutation and query operations.  Go maps are modelled as association
lists, Go slices as `List (Option state)` (a `none` slot is a nil
element), Go `float32` values as exact rationals (they are only stored,
retrieved and compared against the literals 0 and 1, never rounded),
Go interface values that may be nil as `Option`, and pointer identity
of heap objects as an explicit allocation id threaded through the
aggregate.  A Go function that can return an error or crash with a nil
dereference returns a `Res` value (`ok` / `err` / `crash`).
-/

namespace GoRl

set_option maxRecDepth 100000

/-- Model of Go `float32` for the values this program stores and compares. -/
abbrev float32 := Rat

/-- Lookup in an association-list model of a Go map: `m[k]` with the ok flag. -/
def mapGet {κ β : Type} [DecidableEq κ] (l : List (κ × β)) (k : κ) : Option β :=
  match l with
  | [] => none
  | (k2, v) :: rest => if k2 = k then some v else mapGet rest k

/-- Insert/overwrite in an association-list model of a Go map: `m[k] = v`. -/
def mapSet {κ β : Type} [DecidableEq κ] (l : List (κ × β)) (k : κ) (v : β) : List (κ × β) :=
  match l with
  | [] => [(k, v)]
  | (k2, v2) :: rest => if k2 = k then (k, v) :: rest else (k2, v2) :: mapSet rest k v

/-- Deletion in an association-list model of a Go map: `delete(m, k)`. -/
def mapDel {κ β : Type} [DecidableEq κ] (l : List (κ × β)) (k : κ) : List (κ × β) :=
  match l with
  | [] => []
  | (k2, v2) :: rest => if k2 = k then mapDel rest k else (k2, v2) :: mapDel rest k

theorem mapGet_mapSet_self {κ β : Type} [DecidableEq κ] (l : List (κ × β)) (k : κ) (v : β) :
    mapGet (mapSet l k v) k = some v := by
  induction l with
  | nil => simp [mapGet, mapSet]
  | cons p rest ih =>
    by_cases h : p.1 = k
    · simp [mapGet, mapSet, h]
    · simp [mapGet, mapSet, h, ih]

theorem mapGet_mapSet_ne {κ β : Type} [DecidableEq κ] (l : List (κ × β)) (k k' : κ) (v : β)
    (h : k' ≠ k) : mapGet (mapSet l k v) k' = mapGet l k' := by
  have hk : ¬ k = k' := fun hh => h hh.symm
  induction l with
  | nil => simp [mapGet, mapSet, hk]
  | cons p rest ih =>
    by_cases hp : p.1 = k
    · simp [mapGet, mapSet, hp, hk]
    · by_cases hp' : p.1 = k'
      · simp [mapGet, mapSet, hp, hp', h]
      · simp [mapGet, mapSet, hp, hp', ih]

theorem mapGet_mapDel_self {κ β : Type} [DecidableEq κ] (l : List (κ × β)) (k : κ) :
    mapGet (mapDel l k) k = none := by
  induction l with
  | nil => simp [mapGet, mapDel]
  | cons p rest ih =>
    by_cases h : p.1 = k
    · simp [mapDel, h, ih]
    · simp [mapGet, mapDel, h, ih]

/-- Go `state` struct (state.go).  `id` models the heap pointer identity:
two `state` objects allocated separately are distinct even when their
fields agree; the aggregate threads a fresh-id counter. -/
structure state where
  id : Nat
  name : String
  index : Int
  terminal : Bool
deriving DecidableEq

/-- Go `state.Equals`: two States compare equal iff their indices match. -/
def state.Equals (s other : state) : Bool :=
  decide (s.index = other.index)

/-- Go `NewState(name, index, terminal)`; the id is supplied by the caller
(the aggregate uses its allocation counter). -/
def NewState (id : Nat) (name : String) (index : Int) (terminal : Bool) : state :=
  ⟨id, name, index, terminal⟩

/-- Go `action` struct (action.go), with the same pointer-identity id. -/
structure action where
  id : Nat
  name : String
deriving DecidableEq

/-- Go `NewAction(name)`; the id is supplied by the caller. -/
def NewAction (id : Nat) (name : String) : action :=
  ⟨id, name⟩

/-- Go `transition` struct: probability and destination state.  The
destination is an interface value, hence `Option` (nil allowed). -/
structure transition where
  probability : float32
  nextState : Option state
deriving DecidableEq

/-- Go `NewTransition(probability, nextState)`. -/
def NewTransition (probability : float32) (nextState : Option state) : transition :=
  ⟨probability, nextState⟩

/-- Go `rewardsTable` (rewards_table.go): reward keyed by state index,
plus the parallel index-to-state map kept for rendering. -/
structure rewardsTable where
  table : List (Int × float32)
  stateMap : List (Int × state)
deriving DecidableEq

/-- Go `rewardsTable.Get`: `r.table[state.Index()]`.  A nil state argument
dereferences nil (`state.Index()`), modelled as `none`; an absent index
yields the float zero value 0. -/
def rewardsTable.Get (r : rewardsTable) (s : Option state) : Option float32 :=
  s.map (fun st => (mapGet r.table st.index).getD 0)

/-- Go `rewardsTable.Set`: inserts/overwrites under the state's index and
records the state object for rendering. -/
def rewardsTable.Set (r : rewardsTable) (s : state) (reward : float32) : rewardsTable :=
  ⟨mapSet r.table s.index reward, mapSet r.stateMap s.index s⟩

/-- Go `rewardsTable.Remove`: deletes both the reward and the rendering
record under the state's index. -/
def rewardsTable.Remove (r : rewardsTable) (s : state) : rewardsTable :=
  ⟨mapDel r.table s.index, mapDel r.stateMap s.index⟩

/-- Go `NewRewards(nil)`. -/
def NewRewards : rewardsTable := ⟨[], []⟩

/-- Go `transitionTableEntry` (part_004): map from Action to Transition.
Keys are Action interface values and may be nil (NewMDP inserts
`m.actions[action]`, which is nil for an unregistered name), hence
`Option action`. -/
structure transitionTableEntry where
  entry : List (Option action × transition)
deriving DecidableEq

/-- Go `transitionTableEntry.Get`: map lookup, nil when absent (a nil
action key is a legal lookup that simply misses). -/
def transitionTableEntry.Get (t : transitionTableEntry) (a : Option action) : Option transition :=
  mapGet t.entry a

/-- Go `transitionTableEntry.Set`: `t.entry[action] = NewTransition(p, ns)`. -/
def transitionTableEntry.Set (t : transitionTableEntry) (a : Option action)
    (probability : float32) (nextState : Option state) : transitionTableEntry :=
  ⟨mapSet t.entry a (NewTransition probability nextState)⟩

/-- Go `transitionTableEntry.Remove`: `delete(t.entry, action)`. -/
def transitionTableEntry.Remove (t : transitionTableEntry) (a : Option action) : transitionTableEntry :=
  ⟨mapDel t.entry a⟩

/-- Go `NewTransitionTableEntry(nil)`. -/
def NewTransitionTableEntry : transitionTableEntry := ⟨[]⟩

/-- Go `transitionTable` (part_004): map from State objects (pointer
identity) to their entries; the aggregate only ever inserts non-nil
states, so keys are plain `state`. -/
structure transitionTable where
  table : List (state × transitionTableEntry)
deriving DecidableEq

/-- Go `transitionTable.Get`: returns the entry, or nil when the state is
nil or has no entry (`none` here is Go's nil return, not a crash). -/
def transitionTable.Get (t : transitionTable) (s : Option state) : Option transitionTableEntry :=
  s.bind (fun st => mapGet t.table st)

/-- Go `transitionTable.Set`: `t.table[state] = entry`. -/
def transitionTable.Set (t : transitionTable) (s : state) (e : transitionTableEntry) : transitionTable :=
  ⟨mapSet t.table s e⟩

/-- Go `transitionTable.Remove`: `delete(t.table, state)`. -/
def transitionTable.Remove (t : transitionTable) (s : state) : transitionTable :=
  ⟨mapDel t.table s⟩

/-- Go `transitionTable.Update`: `t.table[state].Set(action, p, ns)`.
When the state is nil or has no entry the lookup yields a nil entry and
the `Set` call dereferences nil: modelled as `none` (crash). -/
def transitionTable.Update (t : transitionTable) (s : Option state) (a : Option action)
    (probability : float32) (nextState : Option state) : Option transitionTable :=
  match s with
  | none => none
  | some st =>
    match mapGet t.table st with
    | none => none
    | some e => some ⟨mapSet t.table st (e.Set a probability nextState)⟩

/-- Go `NewTransitionTable(nil)`. -/
def NewTransitionTable : transitionTable := ⟨[]⟩

/-- Result of a Go function that may return an error or crash at runtime
(nil dereference / index out of range). -/
inductive Res (α : Type) where
  | ok : α → Res α
  | err : String → Res α
  | crash : Res α
deriving DecidableEq

/-- Sequencing of fallible Go steps. -/
def rbind {α β : Type} (r : Res α) (f : α → Res β) : Res β :=
  match r with
  | .ok a => f a
  | .err e => .err e
  | .crash => .crash

/-- Whether a `Res` is a successful return. -/
def Res.isOk {α : Type} : Res α → Bool
  | .ok _ => true
  | _ => false

/-- Whether a `Res` is an error return (not a crash). -/
def Res.isErr {α : Type} : Res α → Bool
  | .err _ => true
  | _ => false

/-- The successful payload, if any. -/
def Res.toOption {α : Type} : Res α → Option α
  | .ok a => some a
  | _ => none

/-- Go `mdp` struct (the aggregate).  `nextId` is the model's allocation
counter for pointer identity of States/Actions created inside the
aggregate's own methods. -/
structure mdp where
  initialState : Option state
  states : List (Option state)
  statesCapacity : Int
  statesSize : Int
  actions : List (String × action)
  rewards : rewardsTable
  transitions : transitionTable
  discountRate : float32
  stateMap : List (String × state)
  stateIndexMap : List (Int × state)
  nextId : Nat
deriving DecidableEq

/-- Go `mdp.getStateByName`: nil if not found. -/
def mdp.getStateByName (m : mdp) (s : String) : Option state :=
  mapGet m.stateMap s

/-- Go `mdp.getStateByIndex`: nil if not found. -/
def mdp.getStateByIndex (m : mdp) (index : Int) : Option state :=
  mapGet m.stateIndexMap index

/-- Go `mdp.getAction`: nil if not found. -/
def mdp.getAction (m : mdp) (a : String) : Option action :=
  mapGet m.actions a

/-- Go `mdp.R`: `m.rewards.Get(m.getStateByName(state))`.  `none` is the
nil-state dereference crash inside `rewardsTable.Get`. -/
def mdp.R (m : mdp) (s : String) : Option float32 :=
  m.rewards.Get (m.getStateByName s)

/-- Go `mdp.RByIndex`. -/
def mdp.RByIndex (m : mdp) (stateIndex : Int) : Option float32 :=
  m.rewards.Get (m.getStateByIndex stateIndex)

/-- Go `mdp.T`: `m.transitions.Get(state).Get(action)`.  Outer `none` is
the crash from calling `Get` on a nil entry; `some none` is a genuine
"no transition" result. -/
def mdp.T (m : mdp) (s a : String) : Option (Option transition) :=
  (m.transitions.Get (m.getStateByName s)).map (fun e => e.Get (m.getAction a))

/-- Go `mdp.TByIndex`. -/
def mdp.TByIndex (m : mdp) (stateIndex : Int) (a : String) : Option (Option transition) :=
  (m.transitions.Get (m.getStateByIndex stateIndex)).map (fun e => e.Get (m.getAction a))

/-- Go `mdp.appendStateToList`: grows the backing array to `index*2` when
`index` reaches the capacity field (copying the old slice; the copy
crashes if the old slice is longer than the new one), then writes the
slot (crashing if the slot is outside the slice). -/
def mdp.appendStateToList (m : mdp) (s : state) : Res mdp :=
  let index := s.index
  if index < 0 then .err "index must be non-negative"
  else
    let grown : Res mdp :=
      if m.statesCapacity ≤ index then
        let newCap := index * 2
        if (m.states.length : Int) ≤ newCap then
          .ok { m with statesCapacity := newCap,
                       states := m.states ++ List.replicate (newCap.toNat - m.states.length) none }
        else .crash
      else .ok m
    match grown with
    | .ok m2 =>
      if index.toNat < m2.states.length then
        .ok { m2 with states := m2.states.set index.toNat (some s) }
      else .crash
    | r => r

/-- Go `mdp.AddAction`: AlreadyExists guard, then registry insert. -/
def mdp.AddAction (m : mdp) (a : String) : Res mdp :=
  match m.getAction a with
  | some _ => .err ("action with name " ++ a ++ " already exists")
  | none =>
    .ok { m with actions := mapSet m.actions a (NewAction m.nextId a), nextId := m.nextId + 1 }

/-- Go `mdp.AddActionObject`: AlreadyExists guard keyed on the object's
name, then registry insert of the given object. -/
def mdp.AddActionObject (m : mdp) (a : action) : Res mdp :=
  match m.getAction a.name with
  | some _ => .err ("action " ++ a.name ++ " already exists")
  | none => .ok { m with actions := mapSet m.actions a.name a }

/-- The transition-entry construction loop inside Go `mdp.SetState`
(lines 600-611): for each action name, resolve it in the registry,
auto-registering a fresh Action when absent, and set the entry. -/
def buildEntryNamed : mdp → transitionTableEntry → List (String × transition) →
    Res (mdp × transitionTableEntry)
  | m, e, [] => .ok (m, e)
  | m, e, (an, tr) :: rest =>
    match m.getAction an with
    | some a => buildEntryNamed m (e.Set (some a) tr.probability tr.nextState) rest
    | none =>
      let a := NewAction m.nextId an
      let m1 := { m with nextId := m.nextId + 1 }
      match m1.AddActionObject a with
      | .ok m2 => buildEntryNamed m2 (e.Set (some a) tr.probability tr.nextState) rest
      | .err s => .err s
      | .crash => .crash

/-- Go `mdp.SetState`: validates the index and name, evicts the reward
and transition entries of a state already at the index, writes the slot,
registers the new state under name and index, sets its reward, builds
its transition entry (auto-registering unknown actions), and updates the
initial-state pointer when the index is 0. -/
def mdp.SetState (m : mdp) (s : String) (index : Int) (terminal : Bool) (reward : float32)
    (transitions : List (String × transition)) : Res mdp :=
  if index < 0 then .err "index must be non-negative"
  else if s = "" then .err "name must be provided"
  else
    let st := NewState m.nextId s index terminal
    let m0 := { m with nextId := m.nextId + 1 }
    let m1 :=
      match m0.getStateByIndex index with
      | some sOld => { m0 with rewards := m0.rewards.Remove sOld,
                               transitions := m0.transitions.Remove sOld }
      | none => m0
    match m1.appendStateToList st with
    | .ok m2 =>
      let m3 := { m2 with stateMap := mapSet m2.stateMap s st,
                          stateIndexMap := mapSet m2.stateIndexMap index st,
                          rewards := m2.rewards.Set st reward }
      match buildEntryNamed m3 NewTransitionTableEntry transitions with
      | .ok (m4, entry) =>
        let m5 := { m4 with transitions := m4.transitions.Set st entry }
        .ok (if index = 0 then { m5 with initialState := some st } else m5)
      | .err e => .err e
      | .crash => .crash
    | .err e => .err e
    | .crash => .crash

/-- The transition-entry construction loop inside Go `mdp.SetStateObject`
(lines 644-654): registers each not-yet-known action object, and sets
the entry with the caller's object (even when a different object of the
same name is already registered). -/
def buildEntryObj : mdp → transitionTableEntry → List (action × transition) →
    Res (mdp × transitionTableEntry)
  | m, e, [] => .ok (m, e)
  | m, e, (a, tr) :: rest =>
    match m.getAction a.name with
    | some _ => buildEntryObj m (e.Set (some a) tr.probability tr.nextState) rest
    | none =>
      match m.AddActionObject a with
      | .ok m2 => buildEntryObj m2 (e.Set (some a) tr.probability tr.nextState) rest
      | .err s => .err s
      | .crash => .crash

/-- Go `mdp.SetStateObject`: same contract as `SetState` but the State
(and the Actions in the transition map) are caller-supplied objects. -/
def mdp.SetStateObject (m : mdp) (st : state) (reward : float32)
    (transitions : List (action × transition)) : Res mdp :=
  if st.index < 0 then .err "index must be non-negative"
  else if st.name = "" then .err "name must be provided"
  else
    let m1 :=
      match m.getStateByIndex st.index with
      | some sOld => { m with rewards := m.rewards.Remove sOld,
                              transitions := m.transitions.Remove sOld }
      | none => m
    match m1.appendStateToList st with
    | .ok m2 =>
      let m3 := { m2 with stateMap := mapSet m2.stateMap st.name st,
                          stateIndexMap := mapSet m2.stateIndexMap st.index st,
                          rewards := m2.rewards.Set st reward }
      match buildEntryObj m3 NewTransitionTableEntry transitions with
      | .ok (m4, entry) =>
        let m5 := { m4 with transitions := m4.transitions.Set st entry }
        .ok (if st.index = 0 then { m5 with initialState := some st } else m5)
      | .err e => .err e
      | .crash => .crash
    | .err e => .err e
    | .crash => .crash

/-- Go `mdp.SetInitialState`: `SetState` pinned to index 0 and terminal
hardcoded to false. -/
def mdp.SetInitialState (m : mdp) (s : String) (reward : float32)
    (transitions : List (String × transition)) : Res mdp :=
  m.SetState s 0 false reward transitions

/-- The first-nil-slot scan shared by Go `AddState`/`AddStateObject`:
counts slots from 0 until the first nil (the slice length if none). -/
def firstNilIndex : List (Option state) → Int
  | [] => 0
  | none :: _ => 0
  | some _ :: rest => 1 + firstNilIndex rest

/-- Go `mdp.AddState`: finds the first nil slot and delegates to
`SetState` at that index. -/
def mdp.AddState (m : mdp) (s : String) (terminal : Bool) (reward : float32)
    (transitions : List (String × transition)) : Res mdp :=
  let index := firstNilIndex m.states
  m.SetState s index terminal reward transitions

/-- Go `mdp.AddStateObject`: performs the same first-nil-slot scan, but
the computed index is never used — the call delegates to
`SetStateObject`, which registers the state at its own `Index()`. -/
def mdp.AddStateObject (m : mdp) (st : state) (reward : float32)
    (transitions : List (action × transition)) : Res mdp :=
  let _index := firstNilIndex m.states
  m.SetStateObject st reward transitions

/-- Go `mdp.RemoveStateByIndex`: NotFound when the index map has no
state; otherwise nils the slot (crash when the index is outside the
slice) and removes the reward and transition entries.  The
`stateIndexMap`/`stateMap` registrations are not touched. -/
def mdp.RemoveStateByIndex (m : mdp) (index : Int) : Res mdp :=
  match m.getStateByIndex index with
  | none => .err ("state at index " ++ toString index ++ " doesn't exist")
  | some sOld =>
    if 0 ≤ index ∧ index < (m.states.length : Int) then
      .ok { m with states := m.states.set index.toNat none,
                   rewards := m.rewards.Remove sOld,
                   transitions := m.transitions.Remove sOld }
    else .crash

/-- The cleanup loop inside Go `mdp.RemoveAction` (lines 758-760):
`m.transitions.Get(state).Remove(a)` for every slot of the backing
array.  When the slot is nil, or holds a state with no transition-table
entry, `Get` returns a nil entry and the `Remove` call on it crashes. -/
def removeActionLoop (a : action) : mdp → List (Option state) → Res mdp
  | m, [] => .ok m
  | m, slot :: rest =>
    match slot with
    | none => .crash
    | some st =>
      match mapGet m.transitions.table st with
      | none => .crash
      | some e =>
        removeActionLoop a { m with transitions := m.transitions.Set st (e.Remove (some a)) } rest

/-- Go `mdp.RemoveAction`: NotFound when unregistered; otherwise deletes
from the registry and runs the cleanup loop over every backing-array
slot. -/
def mdp.RemoveAction (m : mdp) (a : String) : Res mdp :=
  match m.getAction a with
  | none => .err ("action with name " ++ a ++ " doesn't exist")
  | some act =>
    let m1 := { m with actions := mapDel m.actions a }
    removeActionLoop act m1 m1.states

/-- Go `mdp.RemoveActionObject`: delegates to `RemoveAction` by name. -/
def mdp.RemoveActionObject (m : mdp) (a : action) : Res mdp :=
  m.RemoveAction a.name

/-- Go `mdp.SetTransition`: resolves both state names and the action and
calls `transitionTable.Update`; `none` is the crash propagated from
`Update` when the start state has no entry (or does not resolve). -/
def mdp.SetTransition (m : mdp) (startState endState : String) (a : String)
    (probability : float32) : Option mdp :=
  (m.transitions.Update (m.getStateByName startState) (m.getAction a) probability
      (m.getStateByName endState)).map (fun t => { m with transitions := t })

/-- Go `defaultStatesCapacity`. -/
def defaultStatesCapacity : Int := 128

/-- The per-state inner loop of Go `NewMDP` (lines 491-497): for each
action name in the state's transition map, error out when the
originating state is not in the terminal set (the action registry is
never consulted), otherwise insert under the registry lookup of the
name — a nil key when the action is unregistered. -/
def buildNewMDPEntry (m : mdp) (isTerminal : Bool) :
    transitionTableEntry → List (String × transition) → Res transitionTableEntry
  | e, [] => .ok e
  | e, (an, tr) :: rest =>
    if isTerminal then
      buildNewMDPEntry m isTerminal (e.Set (m.getAction an) tr.probability tr.nextState) rest
    else .err ("action with name " ++ an ++ " not in MDP")

/-- The outer state loop of Go `NewMDP` (lines 477-501): each listed
state name distinct from the initial state's is appended to the backing
array, registered under name and sequential index, given its reward,
and given the transition entry built by `buildNewMDPEntry`. -/
def newMDPStatesLoop (init : String) (terminals : List String)
    (rewards : List (String × float32))
    (transitions : List (String × List (String × transition))) :
    mdp → Int → List String → Res mdp
  | m, _, [] => .ok m
  | m, i, stName :: rest =>
    let isTerminal := terminals.contains stName
    let s := NewState m.nextId stName i isTerminal
    let m1 := { m with nextId := m.nextId + 1 }
    if init = stName then
      newMDPStatesLoop init terminals rewards transitions m1 i rest
    else
      let m2 := { m1 with states := m1.states ++ [some s],
                          stateMap := mapSet m1.stateMap stName s,
                          stateIndexMap := mapSet m1.stateIndexMap i s,
                          rewards := m1.rewards.Set s ((mapGet rewards stName).getD 0) }
      match buildNewMDPEntry m2 isTerminal NewTransitionTableEntry
          ((mapGet transitions stName).getD []) with
      | .ok entry =>
        newMDPStatesLoop init terminals rewards transitions
          { m2 with transitions := m2.transitions.Set s entry } (i + 1) rest
      | .err e => .err e
      | .crash => .crash

/-- Go `NewMDP`: validates the discount rate, creates the backing array
at the default capacity, appends the initial state (note: `append`, so
it lands at slot 128 while `stateIndexMap[0]`/`stateMap` hold it),
registers the actions, runs the state loop from index 1, and stores the
discount rate. -/
def NewMDP (initialState : String) (states terminals actions : List String)
    (rewards : List (String × float32))
    (transitions : List (String × List (String × transition)))
    (discountRate : float32) : Res mdp :=
  if discountRate ≤ 0 ∨ 1 < discountRate then
    .err "discount rate must be in (0, 1.0]"
  else
    let m : mdp :=
      { initialState := none
        states := List.replicate defaultStatesCapacity.toNat none
        statesCapacity := defaultStatesCapacity
        statesSize := 0
        actions := []
        rewards := NewRewards
        transitions := NewTransitionTable
        discountRate := 0
        stateMap := []
        stateIndexMap := []
        nextId := 0 }
    let m1 :=
      if initialState = "" then m
      else
        let s := NewState m.nextId initialState 0 false
        { m with nextId := m.nextId + 1,
                 initialState := some s,
                 states := m.states ++ [some s],
                 stateMap := mapSet m.stateMap initialState s,
                 stateIndexMap := mapSet m.stateIndexMap 0 s }
    let m2 := actions.foldl
      (fun acc an =>
        { acc with actions := mapSet acc.actions an (NewAction acc.nextId an),
                   nextId := acc.nextId + 1 }) m1
    rbind (newMDPStatesLoop initialState terminals rewards transitions m2 1 states)
      (fun m3 => .ok { m3 with discountRate := discountRate })

/-- Go `NewDefaultMDP`: an empty MDP with no initial state and gamma 1. -/
def NewDefaultMDP : Res mdp :=
  NewMDP "" [] [] [] [] [] 1

theorem getElem?_set_ne' {α : Type} :
    ∀ (l : List α) (n k : Nat) (a : α), n ≠ k → (l.set n a)[k]? = l[k]?
  | [], _, _, _, _ => by simp
  | _ :: _, 0, 0, _, h => absurd rfl h
  | _ :: _, 0, _ + 1, _, _ => by simp [List.set]
  | _ :: _, _ + 1, 0, _, _ => by simp [List.set]
  | _ :: xs, n + 1, k + 1, a, h => by
    simp only [List.set, List.getElem?_cons_succ]
    exact getElem?_set_ne' xs n k a (by omega)

theorem getElem?_append_lt {α : Type} :
    ∀ (l l2 : List α) (k : Nat), k < l.length → (l ++ l2)[k]? = l[k]?
  | [], _, k, h => by simp at h
  | _ :: _, _, 0, _ => by simp
  | _ :: xs, l2, k + 1, h => by
    simp only [List.cons_append, List.getElem?_cons_succ]
    exact getElem?_append_lt xs l2 k (by simpa using h)

theorem buildEntryNamed_ok (trs : List (String × transition)) :
    ∀ (m : mdp) (e : transitionTableEntry), ∃ m2 e2,
      buildEntryNamed m e trs = .ok (m2, e2) ∧
      m2.stateMap = m.stateMap ∧ m2.stateIndexMap = m.stateIndexMap ∧
      m2.rewards = m.rewards ∧ m2.transitions = m.transitions ∧
      m2.states = m.states ∧ m2.statesCapacity = m.statesCapacity ∧
      m2.initialState = m.initialState := by
  induction trs with
  | nil =>
    intro m e
    exact ⟨m, e, rfl, rfl, rfl, rfl, rfl, rfl, rfl, rfl⟩
  | cons p rest ih =>
    intro m e
    obtain ⟨an, tr⟩ := p
    cases h : m.getAction an with
    | some a =>
      obtain ⟨m2, e2, heq, h1, h2, h3, h4, h5, h6, h7⟩ :=
        ih m (e.Set (some a) tr.probability tr.nextState)
      exact ⟨m2, e2, by simp [buildEntryNamed, h, heq], h1, h2, h3, h4, h5, h6, h7⟩
    | none =>
      obtain ⟨m2, e2, heq, h1, h2, h3, h4, h5, h6, h7⟩ :=
        ih { m with nextId := m.nextId + 1,
                    actions := mapSet m.actions an (NewAction m.nextId an) }
          (e.Set (some (NewAction m.nextId an)) tr.probability tr.nextState)
      refine ⟨m2, e2, ?_, h1, h2, h3, h4, h5, h6, h7⟩
      simp only [buildEntryNamed, h]
      have hreg : mdp.AddActionObject { m with nextId := m.nextId + 1 } (NewAction m.nextId an)
          = .ok { m with nextId := m.nextId + 1,
                         actions := mapSet m.actions an (NewAction m.nextId an) } := by
        simp [mdp.AddActionObject, mdp.getAction, NewAction] at h ⊢
        simp [h]
      rw [hreg]
      exact heq

theorem buildEntryObj_ok (trs : List (action × transition)) :
    ∀ (m : mdp) (e : transitionTableEntry), ∃ m2 e2,
      buildEntryObj m e trs = .ok (m2, e2) ∧
      m2.stateMap = m.stateMap ∧ m2.stateIndexMap = m.stateIndexMap ∧
      m2.rewards = m.rewards ∧ m2.transitions = m.transitions ∧
      m2.states = m.states ∧ m2.statesCapacity = m.statesCapacity ∧
      m2.initialState = m.initialState := by
  induction trs with
  | nil =>
    intro m e
    exact ⟨m, e, rfl, rfl, rfl, rfl, rfl, rfl, rfl, rfl⟩
  | cons p rest ih =>
    intro m e
    obtain ⟨a, tr⟩ := p
    cases h : m.getAction a.name with
    | some a2 =>
      obtain ⟨m2, e2, heq, h1, h2, h3, h4, h5, h6, h7⟩ :=
        ih m (e.Set (some a) tr.probability tr.nextState)
      exact ⟨m2, e2, by simp [buildEntryObj, h, heq], h1, h2, h3, h4, h5, h6, h7⟩
    | none =>
      obtain ⟨m2, e2, heq, h1, h2, h3, h4, h5, h6, h7⟩ :=
        ih { m with actions := mapSet m.actions a.name a }
          (e.Set (some a) tr.probability tr.nextState)
      refine ⟨m2, e2, ?_, h1, h2, h3, h4, h5, h6, h7⟩
      simp only [buildEntryObj, h]
      have hreg : mdp.AddActionObject m a = .ok { m with actions := mapSet m.actions a.name a } := by
        simp [mdp.AddActionObject, mdp.getAction] at h ⊢
        simp [h]
      rw [hreg]
      exact heq

theorem setState_ok_registers (m : mdp) (nm : String) (idx : Int) (term : Bool) (rw : float32)
    (trs : List (String × transition)) (m' : mdp)
    (h : m.SetState nm idx term rw trs = .ok m') :
    mapGet m'.stateIndexMap idx = some (NewState m.nextId nm idx term) ∧
    (idx = 0 → m'.initialState = some (NewState m.nextId nm idx term)) := by
  simp only [mdp.SetState] at h
  split at h
  · exact absurd h (by simp)
  split at h
  · exact absurd h (by simp)
  split at h
  case h_2 => exact absurd h (by simp)
  case h_3 => exact absurd h (by simp)
  case h_1 m2 heq =>
    obtain ⟨m4, e4, heq2, p1, p2, p3, p4, p5, p6, p7⟩ :=
      buildEntryNamed_ok trs
        { m2 with stateMap := mapSet m2.stateMap nm (NewState m.nextId nm idx term),
                  stateIndexMap := mapSet m2.stateIndexMap idx (NewState m.nextId nm idx term),
                  rewards := m2.rewards.Set (NewState m.nextId nm idx term) rw }
        NewTransitionTableEntry
    rw [heq2] at h
    simp only [Res.ok.injEq] at h
    subst h
    by_cases hidx : idx = 0
    · rw [if_pos hidx]
      constructor
      · show mapGet m4.stateIndexMap idx = _
        rw [p2]
        exact mapGet_mapSet_self m2.stateIndexMap idx (NewState m.nextId nm idx term)
      · intro _
        rfl
    · rw [if_neg hidx]
      refine ⟨?_, fun hc => absurd hc hidx⟩
      show mapGet m4.stateIndexMap idx = _
      rw [p2]
      exact mapGet_mapSet_self m2.stateIndexMap idx (NewState m.nextId nm idx term)

theorem setStateObject_ok_registers (m : mdp) (st : state) (rw : float32)
    (trs : List (action × transition)) (m' : mdp)
    (h : m.SetStateObject st rw trs = .ok m') :
    mapGet m'.stateIndexMap st.index = some st := by
  simp only [mdp.SetStateObject] at h
  split at h
  · exact absurd h (by simp)
  split at h
  · exact absurd h (by simp)
  split at h
  case h_2 => exact absurd h (by simp)
  case h_3 => exact absurd h (by simp)
  case h_1 m2 heq =>
    obtain ⟨m4, e4, heq2, p1, p2, p3, p4, p5, p6, p7⟩ :=
      buildEntryObj_ok trs
        { m2 with stateMap := mapSet m2.stateMap st.name st,
                  stateIndexMap := mapSet m2.stateIndexMap st.index st,
                  rewards := m2.rewards.Set st rw }
        NewTransitionTableEntry
    rw [heq2] at h
    simp only [Res.ok.injEq] at h
    subst h
    by_cases hidx : st.index = 0
    · rw [if_pos hidx]
      show mapGet m4.stateIndexMap st.index = _
      rw [p2]
      exact mapGet_mapSet_self m2.stateIndexMap st.index st
    · rw [if_neg hidx]
      show mapGet m4.stateIndexMap st.index = _
      rw [p2]
      exact mapGet_mapSet_self m2.stateIndexMap st.index st

theorem buildNewMDPEntry_true_not_err (m : mdp) :
    ∀ (trs : List (String × transition)) (e : transitionTableEntry) (s : String),
      buildNewMDPEntry m true e trs ≠ .err s := by
  intro trs
  induction trs with
  | nil => intro e s h; exact absurd h (by simp [buildNewMDPEntry])
  | cons p rest ih =>
    intro e s h
    obtain ⟨an, tr⟩ := p
    simp only [buildNewMDPEntry, if_pos rfl] at h
    exact ih _ s h

theorem buildNewMDPEntry_true_not_crash (m : mdp) :
    ∀ (trs : List (String × transition)) (e : transitionTableEntry),
      buildNewMDPEntry m true e trs ≠ .crash := by
  intro trs
  induction trs with
  | nil => intro e h; exact absurd h (by simp [buildNewMDPEntry])
  | cons p rest ih =>
    intro e h
    obtain ⟨an, tr⟩ := p
    simp only [buildNewMDPEntry, if_pos rfl] at h
    exact ih _ h

theorem buildEntryNamed_ne_err (trs : List (String × transition)) (m : mdp)
    (e : transitionTableEntry) (s : String) : buildEntryNamed m e trs ≠ .err s := by
  obtain ⟨m2, e2, heq, -⟩ := buildEntryNamed_ok trs m e
  rw [heq]
  simp

theorem buildEntryNamed_ne_crash (trs : List (String × transition)) (m : mdp)
    (e : transitionTableEntry) : buildEntryNamed m e trs ≠ .crash := by
  obtain ⟨m2, e2, heq, -⟩ := buildEntryNamed_ok trs m e
  rw [heq]
  simp

theorem buildEntryNamed_ok_inv (trs : List (String × transition)) (m : mdp)
    (e : transitionTableEntry) (m2 : mdp) (e2 : transitionTableEntry)
    (h : buildEntryNamed m e trs = .ok (m2, e2)) :
    m2.stateMap = m.stateMap ∧ m2.stateIndexMap = m.stateIndexMap ∧
    m2.rewards = m.rewards ∧ m2.transitions = m.transitions ∧
    m2.states = m.states ∧ m2.statesCapacity = m.statesCapacity ∧
    m2.initialState = m.initialState := by
  obtain ⟨m2', e2', heq, props⟩ := buildEntryNamed_ok trs m e
  rw [heq] at h
  simp only [Res.ok.injEq, Prod.mk.injEq] at h
  obtain ⟨h1, h2⟩ := h
  subst h1
  exact props

theorem newMDPStatesLoop_isErr (init : String) (terminals : List String)
    (rewards : List (String × float32))
    (transitions : List (String × List (String × transition))) :
    ∀ (l : List String) (m : mdp) (i : Int),
      (newMDPStatesLoop init terminals rewards transitions m i l).isErr =
        l.any (fun st => !(init == st) && !(terminals.contains st) &&
          !((mapGet transitions st).getD []).isEmpty) := by
  intro l
  induction l with
  | nil => intro m i; rfl
  | cons stName rest ih =>
    intro m i
    simp only [newMDPStatesLoop, List.any_cons]
    by_cases hinit : init = stName
    · rw [if_pos hinit, ih]
      have hb : (init == stName) = true := beq_iff_eq.mpr hinit
      simp [hb]
    · rw [if_neg hinit]
      have hne : (init == stName) = false := beq_eq_false_iff_ne.mpr hinit
      by_cases hterm : terminals.contains stName = true
      · rw [hterm]
        split
        next entry heqb => rw [ih]; simp [hne, hterm]
        next e heqb => exact absurd heqb (buildNewMDPEntry_true_not_err _ _ _ _)
        next heqb => exact absurd heqb (buildNewMDPEntry_true_not_crash _ _ _)
      · have hf : terminals.contains stName = false := by simpa using hterm
        rw [hf]
        cases hts : (mapGet transitions stName).getD [] with
        | nil =>
          simp only [buildNewMDPEntry]
          rw [ih]
          simp [hne]
        | cons p rest2 =>
          obtain ⟨an, tr⟩ := p
          simp only [buildNewMDPEntry, Bool.false_eq_true, if_false]
          simp [Res.isErr, hne]

theorem setState_grow_isOk (m : mdp) (nm : String) (idx : Int) (term : Bool) (rw : float32)
    (trs : List (String × transition))
    (hname : ¬ nm = "")
    (hcap : m.statesCapacity ≤ idx)
    (hcap0 : 0 < m.statesCapacity)
    (hlen : (m.states.length : Int) ≤ idx * 2)
    (hfree : mapGet m.stateIndexMap idx = none) :
    (m.SetState nm idx term rw trs).isOk = true := by
  have hidx0 : ¬ idx < 0 := by omega
  have hfree' : mdp.getStateByIndex { m with nextId := m.nextId + 1 } idx = none := by
    simpa [mdp.getStateByIndex] using hfree
  have hslot : idx.toNat <
      (m.states ++ List.replicate ((idx * 2).toNat - m.states.length) none).length := by
    simp only [List.length_append, List.length_replicate]
    omega
  simp only [mdp.SetState]
  rw [if_neg hidx0, if_neg hname]
  simp only [hfree', mdp.appendStateToList, NewState]
  rw [if_neg hidx0, if_pos hcap, if_pos hlen]
  simp only []
  rw [if_pos hslot]
  split
  next m2x heqb =>
    split
    next m4 entry2 heqb2 => rfl
    next e heqb2 => exact absurd heqb2 (buildEntryNamed_ne_err _ _ _ _)
    next heqb2 => exact absurd heqb2 (buildEntryNamed_ne_crash _ _ _)
  next e heqb => simp at heqb
  next heqb => simp at heqb

theorem setState_grow_frame (m : mdp) (nm : String) (idx : Int) (term : Bool) (rw : float32)
    (trs : List (String × transition)) (s : state) (m' : mdp)
    (hname : ¬ nm = "")
    (hcap : m.statesCapacity ≤ idx)
    (hcap0 : 0 < m.statesCapacity)
    (hlen : (m.states.length : Int) ≤ idx * 2)
    (hfree : mapGet m.stateIndexMap idx = none)
    (hsidx : mapGet m.stateIndexMap s.index = some s)
    (hsname : mapGet m.stateMap s.name = some s)
    (hlow : s.index < idx)
    (hdiff : s.name ≠ nm)
    (h : m.SetState nm idx term rw trs = .ok m') :
    m'.statesCapacity = max m.statesCapacity (idx * 2) ∧
    mapGet m'.stateIndexMap s.index = some s ∧
    mapGet m'.stateMap s.name = some s ∧
    mapGet m'.rewards.table s.index = mapGet m.rewards.table s.index ∧
    mapGet m'.transitions.table s = mapGet m.transitions.table s ∧
    (∀ k : Nat, k ≠ idx.toNat → k < m.states.length → m'.states[k]? = m.states[k]?) := by
  have hidx0 : ¬ idx < 0 := by omega
  have hne0 : ¬ idx = 0 := by omega
  have hfree' : mdp.getStateByIndex { m with nextId := m.nextId + 1 } idx = none := by
    simpa [mdp.getStateByIndex] using hfree
  have hslot : idx.toNat <
      (m.states ++ List.replicate ((idx * 2).toNat - m.states.length) none).length := by
    simp only [List.length_append, List.length_replicate]
    omega
  have hsne : s ≠ (⟨m.nextId, nm, idx, term⟩ : state) := by
    intro hh
    rw [hh] at hlow
    simp at hlow
  have hsidxne : s.index ≠ idx := by omega
  simp only [mdp.SetState] at h
  rw [if_neg hidx0, if_neg hname] at h
  simp only [hfree', mdp.appendStateToList, NewState] at h
  rw [if_neg hidx0, if_pos hcap, if_pos hlen] at h
  simp only [] at h
  rw [if_pos hslot] at h
  split at h
  next m2x heqb =>
    split at h
    next m4 entry2 heqb2 =>
      rw [if_neg hne0] at h
      simp only [Res.ok.injEq] at h heqb
      subst h
      subst heqb
      obtain ⟨p1, p2, p3, p4, p5, p6, p7⟩ := buildEntryNamed_ok_inv _ _ _ _ _ heqb2
      refine ⟨?_, ?_, ?_, ?_, ?_, ?_⟩
      · have hle : m.statesCapacity ≤ idx * 2 := by omega
        show m4.statesCapacity = _
        rw [p6]
        show idx * 2 = _
        exact (max_eq_right hle).symm
      · show mapGet m4.stateIndexMap s.index = _
        rw [p2]
        show mapGet (mapSet m.stateIndexMap idx _) s.index = _
        rw [mapGet_mapSet_ne _ _ _ _ hsidxne]
        exact hsidx
      · show mapGet m4.stateMap s.name = _
        rw [p1]
        show mapGet (mapSet m.stateMap nm _) s.name = _
        rw [mapGet_mapSet_ne _ _ _ _ hdiff]
        exact hsname
      · show mapGet (m4.rewards).table s.index = _
        rw [p3]
        show mapGet (mapSet m.rewards.table idx rw) s.index = _
        rw [mapGet_mapSet_ne _ _ _ _ hsidxne]
      · show mapGet (mapSet m4.transitions.table _ entry2) s = _
        rw [mapGet_mapSet_ne _ _ _ _ hsne, p4]
      · intro k hk hklen
        show (m4.states)[k]? = _
        rw [p5]
        show ((m.states ++ List.replicate ((idx * 2).toNat - m.states.length) none).set idx.toNat _)[k]? = _
        rw [getElem?_set_ne' _ _ _ _ (fun hh => hk hh.symm)]
        exact getElem?_append_lt _ _ _ hklen
    next e heqb2 => exact absurd h (by simp)
    next heqb2 => exact absurd h (by simp)
  next e heqb => simp at heqb
  next heqb => simp at heqb

/-- C1: the index/name agreement invariant (states slot non-nil iff the
index map and the name map hold the same State) is broken by the code.
After `NewMDP "A" ...`, slot 0 of the backing array is nil and the
initial state sits at slot 128 (it was appended to a length-128 slice),
yet `stateIndexMap[0]` and `stateMap["A"]` hold it; and after
`RemoveStateByIndex 0` the slot is nil while both maps still hold the
removed state. -/
theorem c1_invariant_broken_evidence :
    ((NewMDP "A" [] [] [] [] [] 1).toOption.map
        (fun m => (m.states[0]?, m.states[128]?, mapGet m.stateIndexMap 0,
          mapGet m.stateMap "A")) =
      some (some none, some (some ⟨0, "A", 0, false⟩), some ⟨0, "A", 0, false⟩,
        some ⟨0, "A", 0, false⟩)) ∧
    ((rbind (rbind NewDefaultMDP (fun m => m.SetState "B" 0 false 0 []))
        (fun m => m.RemoveStateByIndex 0)).toOption.map
        (fun m => (m.states[0]?, mapGet m.stateIndexMap 0, mapGet m.stateMap "B")) =
      some (some none, some ⟨0, "B", 0, false⟩, some ⟨0, "B", 0, false⟩)) := by
  exact ⟨by decide, by decide⟩

/-- C2: `RemoveStateByIndex` is not NotFound-idempotent in the code: it
never deletes the `stateIndexMap`/`stateMap` registrations, so a second
removal of the same index still resolves the stale state and succeeds
again instead of returning NotFound. -/
theorem c2_remove_twice_succeeds :
    (rbind (rbind NewDefaultMDP (fun m => m.SetState "A" 0 false 0 []))
        (fun m => m.RemoveStateByIndex 0)).isOk = true ∧
    (rbind (rbind (rbind NewDefaultMDP (fun m => m.SetState "A" 0 false 0 []))
        (fun m => m.RemoveStateByIndex 0)) (fun m => m.RemoveStateByIndex 0)).isOk = true := by
  exact ⟨by decide, by decide⟩

/-- C3: `RemoveAction` on a registered action crashes instead of
cascading: its cleanup loop iterates every backing-array slot, and on a
nil slot `transitions.Get` returns a nil entry whose `Remove` call is a
nil dereference.  A freshly constructed MDP always has nil slots
(default capacity 128), so the call crashes after deleting the action
from the registry. -/
theorem c3_removeAction_crashes :
    rbind (rbind NewDefaultMDP (fun m => m.AddAction "U")) (fun m => m.RemoveAction "U") =
      Res.crash := by
  decide

/-- C4 (counterexample): a non-terminal state whose transition map
references only registered actions is rejected by `NewMDP`, refuting the
claim that construction succeeds in that case: the check is on the
terminal set, not on the action registry. -/
theorem c4_registered_action_rejected :
    (NewMDP "" ["B"] [] ["a"] [] [("B", [("a", ⟨1, none⟩)])] 1).isErr = true := by
  decide

/-- C4 (amended): with a valid discount rate, `NewMDP` fails with the
"action ... not in MDP" error exactly when some listed state distinct
from the initial state is not in the terminal list and has a non-empty
transition map; the action registry is never consulted, so terminal
states with transition maps referencing unregistered actions are
accepted and non-terminal states with any transition map are rejected. -/
theorem c4_newMDP_error_characterization (init : String)
    (states terminals actions : List String) (rewards : List (String × float32))
    (transitions : List (String × List (String × transition))) (dr : float32)
    (h1 : 0 < dr) (h2 : dr ≤ 1) :
    (NewMDP init states terminals actions rewards transitions dr).isErr =
      states.any (fun st => !(init == st) && !(terminals.contains st) &&
        !((mapGet transitions st).getD []).isEmpty) := by
  have hc : ¬ (dr ≤ 0 ∨ 1 < dr) := by
    push_neg
    exact ⟨h1, h2⟩
  simp only [NewMDP]
  rw [if_neg hc]
  have key : ∀ (r : Res mdp),
      (rbind r (fun m3 => Res.ok { m3 with discountRate := dr })).isErr = r.isErr := by
    intro r
    cases r <;> rfl
  rw [key]
  exact newMDPStatesLoop_isErr init terminals rewards transitions states _ 1

/-- C4 (witness): the characterization applied at a concrete input where
a terminal state carries a transition map naming an unregistered action:
no error is reported. -/
theorem c4_newMDP_error_characterization_witness :
    (0 : float32) < 1 ∧ (1 : float32) ≤ 1 ∧
    (NewMDP "" ["B"] ["B"] [] [] [("B", [("zz", ⟨1, none⟩)])] 1).isErr =
      ["B"].any (fun st => !("" == st) && !(["B"].contains st) &&
        !((mapGet [("B", [("zz", (⟨1, none⟩ : transition))])] st).getD []).isEmpty) := by
  refine ⟨by norm_num, le_refl 1, ?_⟩
  exact c4_newMDP_error_characterization "" ["B"] ["B"] [] []
    [("B", [("zz", ⟨1, none⟩)])] 1 (by norm_num) (le_refl 1)

/-- C5 (counterexample): `R` and `RByIndex` on a name/index that does not
resolve to a state crash (nil State dereference inside
`rewardsTable.Get`) instead of silently returning the zero reward. -/
theorem c5_unknown_state_reward_crashes :
    (NewDefaultMDP.toOption.map (fun m => m.R "x") = some none) ∧
    (NewDefaultMDP.toOption.map (fun m => m.RByIndex 3) = some none) := by
  exact ⟨by decide, by decide⟩

/-- C5 (amended): `R`/`RByIndex` crash (nil dereference) whenever the
name/index does not resolve to a registered state; the silent
zero-reward fallback applies only when the name/index resolves but the
rewards table has no entry for that state's index. -/
theorem c5_reward_lookup_behavior (m : mdp) (nm : String) (idx : Int) (s s2 : state) :
    (m.getStateByName nm = none → m.R nm = none) ∧
    (m.getStateByName nm = some s → mapGet m.rewards.table s.index = none →
      m.R nm = some 0) ∧
    (m.getStateByIndex idx = none → m.RByIndex idx = none) ∧
    (m.getStateByIndex idx = some s2 → mapGet m.rewards.table s2.index = none →
      m.RByIndex idx = some 0) := by
  refine ⟨?_, ?_, ?_, ?_⟩
  · intro h
    simp [mdp.R, rewardsTable.Get, h]
  · intro h h2
    simp [mdp.R, rewardsTable.Get, h, h2]
  · intro h
    simp [mdp.RByIndex, rewardsTable.Get, h]
  · intro h h2
    simp [mdp.RByIndex, rewardsTable.Get, h, h2]

/-- Concrete aggregate for the C5 witness: one registered state with no
rewards entry. -/
def c5m : mdp :=
  { initialState := none, states := [some ⟨0, "A", 0, false⟩], statesCapacity := 1,
    statesSize := 0, actions := [], rewards := ⟨[], []⟩, transitions := ⟨[]⟩,
    discountRate := 1, stateMap := [("A", ⟨0, "A", 0, false⟩)],
    stateIndexMap := [(0, ⟨0, "A", 0, false⟩)], nextId := 1 }

/-- C5 (witness): the amended behavior at concrete inputs. -/
theorem c5_reward_lookup_behavior_witness :
    c5m.R "x" = none ∧ c5m.R "A" = some 0 ∧ c5m.RByIndex 7 = none ∧
    c5m.RByIndex 0 = some 0 :=
  ⟨(c5_reward_lookup_behavior c5m "x" 7 ⟨0, "A", 0, false⟩ ⟨0, "A", 0, false⟩).1 (by decide),
   (c5_reward_lookup_behavior c5m "A" 7 ⟨0, "A", 0, false⟩ ⟨0, "A", 0, false⟩).2.1
     (by decide) rfl,
   (c5_reward_lookup_behavior c5m "x" 7 ⟨0, "A", 0, false⟩ ⟨0, "A", 0, false⟩).2.2.1
     (by decide),
   (c5_reward_lookup_behavior c5m "x" 0 ⟨0, "A", 0, false⟩ ⟨0, "A", 0, false⟩).2.2.2
     (by decide) rfl⟩

/-- C6: `transitionTable.Update` inserts/overwrites the transition for
the action in the state's existing entry, crashes (rather than creating
an entry) when the state has none, and `SetTransition` propagates that
crash when the start state resolves but has no entry yet. -/
theorem c6_update_requires_entry (t : transitionTable) (s : state) (a : Option action)
    (p : float32) (ns : Option state) (m : mdp) (startName endName actName : String)
    (s2 : state) :
    (mapGet t.table s = none → t.Update (some s) a p ns = none) ∧
    (∀ e, mapGet t.table s = some e →
      t.Update (some s) a p ns = some ⟨mapSet t.table s (e.Set a p ns)⟩) ∧
    (m.getStateByName startName = some s2 → mapGet m.transitions.table s2 = none →
      m.SetTransition startName endName actName p = none) := by
  refine ⟨?_, ?_, ?_⟩
  · intro h
    simp [transitionTable.Update, h]
  · intro e h
    simp [transitionTable.Update, h]
  · intro h1 h2
    simp [mdp.SetTransition, transitionTable.Update, h1, h2]

/-- Concrete state, table and aggregate for the C6 witness. -/
def c6s : state := ⟨0, "A", 0, false⟩

/-- Table holding an (empty) entry for `c6s`. -/
def c6t : transitionTable := ⟨[(c6s, ⟨[]⟩)]⟩

/-- Aggregate in which name "A" resolves but has no transition entry. -/
def c6m : mdp :=
  { initialState := none, states := [some c6s], statesCapacity := 1, statesSize := 0,
    actions := [], rewards := ⟨[], []⟩, transitions := ⟨[]⟩, discountRate := 1,
    stateMap := [("A", c6s)], stateIndexMap := [(0, c6s)], nextId := 1 }

/-- C6 (witness): `Update` crashes on a missing entry, overwrites an
existing one, and `SetTransition` propagates the crash. -/
theorem c6_update_requires_entry_witness :
    (transitionTable.Update ⟨[]⟩ (some c6s) none 1 none = none) ∧
    (transitionTable.Update c6t (some c6s) none 1 none =
      some ⟨mapSet c6t.table c6s (transitionTableEntry.Set ⟨[]⟩ none 1 none)⟩) ∧
    (c6m.SetTransition "A" "B" "u" 1 = none) :=
  ⟨(c6_update_requires_entry ⟨[]⟩ c6s none 1 none c6m "A" "B" "u" c6s).1 rfl,
   (c6_update_requires_entry c6t c6s none 1 none c6m "A" "B" "u" c6s).2.1 ⟨[]⟩ (by decide),
   (c6_update_requires_entry c6t c6s none 1 none c6m "A" "B" "u" c6s).2.2 (by decide) rfl⟩

/-- C7 (counterexample): registering a state at index 200 (beyond the
default capacity 128) under a name already used by the state at index 1
makes the old state unresolvable by name — `stateMap["A"]` now yields
the new index-200 object — refuting the claim that every previously
registered lower-indexed state still resolves by name to its original
object after capacity growth. -/
theorem c7_name_collision_breaks_resolution :
    ((rbind (rbind NewDefaultMDP (fun m => m.SetState "A" 1 false 5 []))
        (fun m => m.SetState "A" 200 false 7 [])).toOption.map
      (fun m => (m.getStateByName "A", m.getStateByIndex 1))) =
      some (some ⟨1, "A", 200, false⟩, some ⟨0, "A", 1, false⟩) := by
  decide

/-- C7 (amended): when `SetState` targets an index at or beyond the
capacity with a non-empty name, the backing slice no longer than twice
the index, the index unoccupied, and a name distinct from the given
lower-indexed state's, the call succeeds, the new capacity is
`max(currentCapacity, index*2)` (i.e. `index*2`), that state still
resolves by index and by name to its original object with its reward and
transition entry unchanged, and every other backing-array slot is copied
across. -/
theorem c7_capacity_growth_frame (m : mdp) (nm : String) (idx : Int) (term : Bool)
    (rw : float32) (trs : List (String × transition)) (s : state)
    (hname : ¬ nm = "")
    (hcap : m.statesCapacity ≤ idx)
    (hcap0 : 0 < m.statesCapacity)
    (hlen : (m.states.length : Int) ≤ idx * 2)
    (hfree : mapGet m.stateIndexMap idx = none)
    (hsidx : mapGet m.stateIndexMap s.index = some s)
    (hsname : mapGet m.stateMap s.name = some s)
    (hlow : s.index < idx)
    (hdiff : s.name ≠ nm) :
    ∃ m', m.SetState nm idx term rw trs = .ok m' ∧
      m'.statesCapacity = max m.statesCapacity (idx * 2) ∧
      mapGet m'.stateIndexMap s.index = some s ∧
      mapGet m'.stateMap s.name = some s ∧
      mapGet m'.rewards.table s.index = mapGet m.rewards.table s.index ∧
      mapGet m'.transitions.table s = mapGet m.transitions.table s ∧
      (∀ k : Nat, k ≠ idx.toNat → k < m.states.length → m'.states[k]? = m.states[k]?) := by
  have hok := setState_grow_isOk m nm idx term rw trs hname hcap hcap0 hlen hfree
  cases hres : m.SetState nm idx term rw trs with
  | ok m' =>
    exact ⟨m', rfl, setState_grow_frame m nm idx term rw trs s m' hname hcap hcap0 hlen
      hfree hsidx hsname hlow hdiff hres⟩
  | err e =>
    rw [hres] at hok
    simp [Res.isOk] at hok
  | crash =>
    rw [hres] at hok
    simp [Res.isOk] at hok

/-- Concrete prior state for the C7 witness. -/
def c7s : state := ⟨0, "A", 1, false⟩

/-- Concrete aggregate (capacity 2, one registered state at index 1) for
the C7 witness. -/
def c7m : mdp :=
  { initialState := none, states := [none, some c7s], statesCapacity := 2, statesSize := 0,
    actions := [], rewards := ⟨[(1, 5)], [(1, c7s)]⟩, transitions := ⟨[(c7s, ⟨[]⟩)]⟩,
    discountRate := 1, stateMap := [("A", c7s)], stateIndexMap := [(1, c7s)], nextId := 1 }

/-- C7 (witness): growth from capacity 2 to 6 when setting index 3,
with the index-1 state fully preserved. -/
theorem c7_capacity_growth_frame_witness :
    ∃ m', c7m.SetState "B" 3 false 7 [] = .ok m' ∧
      m'.statesCapacity = max c7m.statesCapacity (3 * 2) ∧
      mapGet m'.stateIndexMap c7s.index = some c7s ∧
      mapGet m'.stateMap c7s.name = some c7s ∧
      mapGet m'.rewards.table c7s.index = mapGet c7m.rewards.table c7s.index ∧
      mapGet m'.transitions.table c7s = mapGet c7m.transitions.table c7s ∧
      (∀ k : Nat, k ≠ (3 : Int).toNat → k < c7m.states.length →
        m'.states[k]? = c7m.states[k]?) :=
  c7_capacity_growth_frame c7m "B" 3 false 7 [] c7s (by decide) (by decide) (by decide)
    (by decide) (by decide) (by decide) (by decide) (by decide) (by decide)

/-- C8 (counterexample): `AddStateObject` on an aggregate whose first
nil slot is index 0 registers the state at its own pre-set index 5, not
at the computed lowest free index — slot 0 stays nil and the state lands
under index 5, refuting the claim that `AddStateObject` registers at the
first unoccupied index. -/
theorem c8_addStateObject_ignores_scan :
    ((rbind NewDefaultMDP (fun m => m.AddStateObject ⟨7, "S5", 5, false⟩ 0 [])).toOption.map
      (fun m => (mapGet m.stateIndexMap 5, m.states[0]?, firstNilIndex m.states))) =
      some (some ⟨7, "S5", 5, false⟩, some none, 0) := by
  decide

/-- C8 (amended): `AddState` scans for the first nil slot and registers
the new state at exactly that index; `AddStateObject` performs the same
scan but discards its result and registers the state at the state's own
`Index()`. -/
theorem c8_add_state_index_choice (m m1 m2 : mdp) (nm : String) (term : Bool)
    (rw : float32) (trs : List (String × transition)) (st : state)
    (trsO : List (action × transition)) :
    (m.AddState nm term rw trs = .ok m1 →
      mapGet m1.stateIndexMap (firstNilIndex m.states) =
        some (NewState m.nextId nm (firstNilIndex m.states) term)) ∧
    (m.AddStateObject st rw trsO = .ok m2 → mapGet m2.stateIndexMap st.index = some st) := by
  constructor
  · intro h
    exact (setState_ok_registers m nm (firstNilIndex m.states) term rw trs m1 h).1
  · intro h
    exact setStateObject_ok_registers m st rw trsO m2 h

/-- Minimal aggregate (one nil slot) shared by the C8 and C9 witnesses. -/
def emptyMdp1 : mdp :=
  { initialState := none, states := [none], statesCapacity := 1, statesSize := 0, actions := [],
    rewards := ⟨[], []⟩, transitions := ⟨[]⟩, discountRate := 1, stateMap := [],
    stateIndexMap := [], nextId := 0 }

/-- C8 (witness): `AddState` lands at the scanned index 0, while
`AddStateObject` of an index-0 object lands at its own index. -/
theorem c8_add_state_index_choice_witness :
    (∃ m1, emptyMdp1.AddState "A" false 0 [] = .ok m1 ∧
      mapGet m1.stateIndexMap (firstNilIndex emptyMdp1.states) =
        some (NewState emptyMdp1.nextId "A" (firstNilIndex emptyMdp1.states) false)) ∧
    (∃ m2, emptyMdp1.AddStateObject ⟨7, "B", 0, false⟩ 0 [] = .ok m2 ∧
      mapGet m2.stateIndexMap (0 : Int) = some ⟨7, "B", 0, false⟩) :=
  ⟨⟨_, rfl, (c8_add_state_index_choice emptyMdp1 _ emptyMdp1 "A" false 0 []
      ⟨7, "B", 0, false⟩ []).1 rfl⟩,
   ⟨_, rfl, (c8_add_state_index_choice emptyMdp1 emptyMdp1 _ "A" false 0 []
      ⟨7, "B", 0, false⟩ []).2 rfl⟩⟩

/-- C9: every state installed by `SetInitialState` at index 0 is
non-terminal — the terminal flag is hardcoded to false, so there is no
way through `SetInitialState` to make the initial state terminal. -/
theorem c9_initial_state_nonterminal (m : mdp) (nm : String) (rw : float32)
    (trs : List (String × transition)) (m' : mdp)
    (h : m.SetInitialState nm rw trs = .ok m') :
    ∃ st, mapGet m'.stateIndexMap 0 = some st ∧ st.terminal = false ∧
      m'.initialState = some st := by
  have hreg := setState_ok_registers m nm 0 false rw trs m' h
  exact ⟨NewState m.nextId nm 0 false, hreg.1, rfl, hreg.2 rfl⟩

/-- C9 (witness): a concrete `SetInitialState` call installing a
non-terminal state at index 0. -/
theorem c9_initial_state_nonterminal_witness :
    ∃ m', emptyMdp1.SetInitialState "I" 2 [] = .ok m' ∧
      ∃ st, mapGet m'.stateIndexMap 0 = some st ∧ st.terminal = false ∧
        m'.initialState = some st :=
  ⟨_, rfl, c9_initial_state_nonterminal emptyMdp1 "I" 2 [] _ rfl⟩

/-- C10: the rewards table is keyed by state index alone — a value set
through one State object is read and removed through any other State
object with the same index, even when name and terminal flag differ, and
such states compare Equal. -/
theorem c10_rewards_keyed_by_index (r : rewardsTable) (s1 s2 : state) (rw : float32)
    (h : s1.index = s2.index) :
    (r.Set s1 rw).Get (some s2) = some rw ∧
    mapGet ((r.Set s1 rw).Remove s2).table s1.index = none ∧
    s1.Equals s2 = true := by
  refine ⟨?_, ?_, ?_⟩
  · simp [rewardsTable.Get, rewardsTable.Set, ← h, mapGet_mapSet_self]
  · show mapGet (mapDel (mapSet r.table s1.index rw) s2.index) s1.index = none
    rw [h]
    exact mapGet_mapDel_self _ _
  · simp [state.Equals, h]

/-- C10 (witness): concrete states differing in id, name and terminal
flag but sharing index 3. -/
theorem c10_rewards_keyed_by_index_witness :
    (rewardsTable.Set ⟨[], []⟩ ⟨0, "A", 3, false⟩ 7).Get (some ⟨5, "B", 3, true⟩) = some 7 ∧
    mapGet ((rewardsTable.Set ⟨[], []⟩ ⟨0, "A", 3, false⟩ 7).Remove ⟨5, "B", 3, true⟩).table
      ((⟨0, "A", 3, false⟩ : state).index) = none ∧
    state.Equals ⟨0, "A", 3, false⟩ ⟨5, "B", 3, true⟩ = true :=
  ⟨(c10_rewards_keyed_by_index ⟨[], []⟩ ⟨0, "A", 3, false⟩ ⟨5, "B", 3, true⟩ 7 rfl).1,
   (c10_rewards_keyed_by_index ⟨[], []⟩ ⟨0, "A", 3, false⟩ ⟨5, "B", 3, true⟩ 7 rfl).2.1,
   (c10_rewards_keyed_by_index ⟨[], []⟩ ⟨0, "A", 3, false⟩ ⟨5, "B", 3, true⟩ 7 rfl).2.2⟩

end GoRl
